import Mathlib

/-!
Shallow embedding of the change-monitoring scraper in `src/scripts/monitor.ts`
(the canonical second variant of the file, whose functions the specification's
claims cite: `isDuplicate`, `createNewsItem`, `slugify`, `scrapeTwitter`,
`scrapeWeb`, `scrapeWithRetry`, `readNewsJson`, `writeNewsJson`, `main`).

Modelling conventions:
* JavaScript strings are Lean `String`s (lists of characters); the claims and
  counterexamples only exercise ASCII data, where JS `toLowerCase`, `\s`, `\w`
  and `trim` agree with the ASCII-level Lean models below.
* Effectful browser calls (`page.goto`, `page.waitForSelector`, `page.$`,
  `getAttribute`, `innerText`) are abstracted into explicit page-environment
  structures; a call that can throw is modelled with `Except`.
* The WHATWG `new URL(href, base)` constructor is an external library; it is
  modelled as an opaque resolver `String → Option String` (with the base
  already applied), `none` meaning the constructor throws.
* `uuidv4()` is modelled by a fresh-id counter and `new Date().toISOString()`
  by an opaque constant `0`; neither field takes part in deduplication.
-/

namespace Monitor

/-- Retry configuration constant `MAX_RETRIES = 3` from monitor.ts. -/
def MAX_RETRIES : Nat := 3

/-- Retry configuration constant `RETRY_DELAY_MS = 2000` from monitor.ts. -/
def RETRY_DELAY_MS : Nat := 2000

/-- ASCII portion of the JavaScript `\s` character class (and of `trim`);
the scraper's data and the counterexamples only use these characters. -/
def jsSpace (c : Char) : Bool :=
  c == ' ' || c == '\t' || c == '\n' || c == '\r' || c == '\x0b' || c == '\x0c'

/-- One pass of `replace(/\s+/g, r)`: every maximal run of whitespace is
replaced by the single character `r`.  The boolean records whether the
previous character belonged to a whitespace run. -/
def collapseRunsAux (r : Char) : Bool → List Char → List Char
  | _, [] => []
  | prev, c :: rest =>
    if jsSpace c then
      if prev then collapseRunsAux r true rest
      else r :: collapseRunsAux r true rest
    else c :: collapseRunsAux r false rest

/-- `replace(/\s+/g, ' ')` on a character list. -/
def collapseWS (l : List Char) : List Char := collapseRunsAux ' ' false l

/-- `replace(/\s+/g, '-')` on a character list (used by `slugify`). -/
def collapseWSToDash (l : List Char) : List Char := collapseRunsAux '-' false l

/-- JavaScript `String.prototype.trim` (ASCII whitespace). -/
def trimChars (l : List Char) : List Char :=
  ((l.dropWhile (fun c => jsSpace c)).reverse.dropWhile (fun c => jsSpace c)).reverse

/-- JavaScript `s.trim()`. -/
def trimStr (s : String) : String := String.mk (trimChars s.data)

/-- JavaScript `s.toLowerCase()` (ASCII agreement with `Char.toLower`). -/
def lowerStr (s : String) : String := String.mk (s.data.map Char.toLower)

/-- `title.replace(/\s+/g, ' ').trim()` — the title cleaning performed by
`createNewsItem` in monitor.ts. -/
def cleanTitle (s : String) : String := String.mk (trimChars (collapseWS s.data))

/-- JavaScript truthiness fallback `s || fallback` for strings: the empty
string is falsy. -/
def jsOr (s fallback : String) : String := if s == "" then fallback else s

/-- JavaScript `s.includes(sub)`. -/
def containsSub (s sub : String) : Bool :=
  s.data.tails.any (fun t => sub.data.isPrefixOf t)

/-- The persisted record schema of `news.json` (interface `NewsItem`).
`id` (a uuid in the source) is modelled as a `Nat` drawn from a fresh-id
counter and `date` as an opaque `Nat`; neither is consulted by `isDuplicate`. -/
structure NewsItem where
  id : Nat
  source : String
  title : String
  date : Nat
  url : String
deriving Repr, DecidableEq

/-- `isDuplicate(news, title, url)` from monitor.ts: some stored item has a
case-insensitively equal title or a byte-equal url. -/
def isDuplicate (news : List NewsItem) (title url : String) : Bool :=
  news.any (fun item => lowerStr item.title == lowerStr title || item.url == url)

/-- `createNewsItem(source, title, url)` from monitor.ts: the stored title is
the whitespace-cleaned form of the argument; the url is stored unchanged. -/
def createNewsItem (freshId : Nat) (source title url : String) : NewsItem :=
  { id := freshId, source := source, title := cleanTitle title, date := 0, url := url }

/-- The Twitter-branch title computation in `main`:
`text.slice(0, 100) + (text.length > 100 ? '...' : '')`. -/
def twitterTitle (text : String) : String :=
  String.mk (text.data.take 100 ++ (if 100 < text.data.length then ['.', '.', '.'] else []))

/-- Keep `[a-zA-Z0-9_-]`, i.e. the complement of the `[^\w\-]+` class removed
by `slugify`. -/
def isWordDash (c : Char) : Bool := c.isAlphanum || c == '_' || c == '-'

/-- `replace(/\-\-+/g, '-')`: collapse runs of dashes to a single dash (a run
of length one is already a single dash). -/
def collapseDashAux : Bool → List Char → List Char
  | _, [] => []
  | prev, c :: rest =>
    if c == '-' then
      if prev then collapseDashAux true rest
      else '-' :: collapseDashAux true rest
    else c :: collapseDashAux false rest

/-- `slugify(text)` from monitor.ts: lower-case, trim, whitespace runs to
single dashes, strip non-word characters, collapse dash runs, cut to 50. -/
def slugify (s : String) : String :=
  let l0 := s.data.map Char.toLower
  let l1 := trimChars l0
  let l2 := collapseWSToDash l1
  let l3 := l2.filter isWordDash
  let l4 := collapseDashAux false l3
  String.mk (l4.take 50)

/-- Variant-1 `resolveUrl(base, relative)`: `new URL(relative, base).href`
with the raw `relative` returned when the constructor throws.  The URL
library is abstracted as `resolve` (base already applied). -/
def resolveUrl (resolve : String → Option String) (relative : String) : String :=
  (resolve relative).getD relative

/-- The `(text, link)` pair produced by the extraction strategies
(interface `ScrapeResult` in monitor.ts). -/
structure ScrapeResult where
  text : String
  link : String
deriving Repr, DecidableEq

/-- One matched DOM element as seen by `scrapeWeb`: its `innerText`, its own
`href` attribute, the `href` of a descendant `a[href]` (if any), and its `id`
attribute.  `none` models both an absent attribute and the falsy empty
attribute value that the source's `if (hrefHandle)` / `if (id)` checks skip. -/
structure WebElement where
  text : String
  href : Option String
  anchorHref : Option String
  idAttr : Option String
deriving Repr, DecidableEq

/-- The link cascade of `scrapeWeb` for one element: own `href`, else
descendant anchor `href`; resolve against the page url (`none` = the URL
constructor threw, after which the source sets `link = null`); else
`url#id`; else `url#slugify(text.trim())`. -/
def elementLink (resolve : String → Option String) (pageUrl : String)
    (el : WebElement) : String :=
  let raw : Option String :=
    match el.href with
    | some h => some h
    | none => el.anchorHref
  let resolved : Option String :=
    match raw with
    | some l => resolve l
    | none => none
  match resolved with
  | some l => l
  | none =>
    match el.idAttr with
    | some i => pageUrl ++ "#" ++ i
    | none => pageUrl ++ "#" ++ slugify (trimStr el.text)

/-- The pure element-processing loop of `scrapeWeb` (navigation and the
selector wait are modelled at the attempt level, where they can throw): every
element whose `innerText` is non-empty after trimming yields the candidate
`(text.trim(), link)`; no other filtering is performed. -/
def scrapeWeb (resolve : String → Option String) (pageUrl : String)
    (els : List WebElement) : List ScrapeResult :=
  els.filterMap (fun el =>
    if trimStr el.text == "" then none
    else some { text := trimStr el.text, link := elementLink resolve pageUrl el })

/-- Exceptions a scrape attempt can raise: the `waitForSelector` timeout and
any other navigation/automation error. -/
inductive ScrapeError where
  | timeout
  | nav
deriving Repr, DecidableEq

/-- One tweet container: the `innerText` of its `[data-testid="tweetText"]`
child (`none` when that child is absent) and the `href` of a descendant
`a[href*="/status/"]` (`none` when absent). -/
structure Tweet where
  text : Option String
  statusHref : Option String
deriving Repr, DecidableEq

/-- The page environment `scrapeTwitter` runs against: whether `page.goto`
throws, whether the `[data-testid="tweet"]` wait times out, the pinned tweet
(if any) and the first tweet in document order (if any). -/
structure TwitterPage where
  gotoFails : Bool
  waitTimesOut : Bool
  pinned : Option Tweet
  firstTweet : Option Tweet

/-- The body of `scrapeTwitter` before its surrounding `try/catch`:
navigation and the tweet-container wait can throw; afterwards the pinned
tweet is preferred, falling back to the first tweet; an absent or empty
tweet text yields `none`; the status link is resolved against
`https://x.com` and falls back to the requested url. -/
def scrapeTwitterBody (resolve : String → Option String) (p : TwitterPage)
    (url : String) : Except ScrapeError (Option ScrapeResult) :=
  if p.gotoFails then Except.error ScrapeError.nav
  else if p.waitTimesOut then Except.error ScrapeError.timeout
  else
    let tweetElement : Option Tweet :=
      match p.pinned with
      | some t => some t
      | none => p.firstTweet
    match tweetElement with
    | none => Except.ok none
    | some tw =>
      match tw.text with
      | none => Except.ok none
      | some text =>
        if text == "" then Except.ok none
        else
          let link : Option String :=
            match tw.statusHref with
            | some href => if href == "" then none else resolve href
            | none => none
          Except.ok (some { text := text, link := link.getD url })

/-- `scrapeTwitter(page, url)` from monitor.ts: the whole body runs inside
`try { ... } catch (error) { console.log(...) }`, so every exception —
including the container-wait timeout — is swallowed and the function
returns `null`. -/
def scrapeTwitter (resolve : String → Option String) (p : TwitterPage)
    (url : String) : Option ScrapeResult :=
  match scrapeTwitterBody resolve p url with
  | Except.ok r => r
  | Except.error _ => none

/-- The loop of `scrapeWithRetry`, parametrised by the attempt outcomes.
`i` is the current attempt number and `rem` the number of attempts still
allowed including the current one (`rem = retries - i + 1`).  The returned
list records the back-off sleeps performed, in order. -/
def retryGo (fn : Nat → Except Unit α) : Nat → Nat → Option α × List Nat
  | _, 0 => (none, [])
  | i, 1 =>
    match fn i with
    | Except.ok a => (some a, [])
    | Except.error _ => (none, [])
  | i, rem + 2 =>
    match fn i with
    | Except.ok a => (some a, [])
    | Except.error _ =>
      let p := retryGo fn (i + 1) (rem + 1)
      (p.1, RETRY_DELAY_MS * 2 ^ (i - 1) :: p.2)

/-- `scrapeWithRetry(fn, retries)` from monitor.ts, with the attempt
outcomes made explicit (`fn i` is what the `i`-th call of the thunk does):
returns the first success, sleeping `RETRY_DELAY_MS * 2^(attempt-1)` after
each failure that still has attempts remaining, and `null` after the budget
is exhausted. -/
def scrapeWithRetry (fn : Nat → Except Unit α) (retries : Nat := MAX_RETRIES) :
    Option α × List Nat :=
  retryGo fn 1 retries

/-- Outcome of the store read attempted by `readNewsJson`: the file is
absent, it parses to a collection, reading throws, or parsing throws. -/
inductive ReadOutcome where
  | absent
  | parsed (items : List NewsItem)
  | readError
  | parseError

/-- `readNewsJson()` from monitor.ts: the whole body runs inside
`try { ... } catch (error) { console.error(...) }` and falls through to
`return []`, so an absent file, a read failure and a parse failure all
yield the empty collection. -/
def readNewsJson : ReadOutcome → List NewsItem
  | ReadOutcome.parsed items => items
  | _ => []

/-- The run-reporting record pushed into `results` for each target
(`ScrapedResult` in monitor.ts, minus the constant `name` field and the
opaque timestamp): url, whether the target was classified as twitter, the
joined `content` string, and the optional `error` description. -/
structure ResultEntry where
  url : String
  isTwitter : Bool
  content : Option String
  error : Option String
deriving Repr, DecidableEq

/-- The run accumulator of `main`: `newItems`, `addedCount`, `skippedCount`
and the per-target `results` list. -/
structure RunAcc where
  newItems : List NewsItem
  added : Nat
  skipped : Nat
  results : List ResultEntry
deriving Repr, DecidableEq

/-- The admit/reject step of `main` for one candidate `(title, url)` pair:
`isDuplicate([...existingNews, ...newItems], title, url)` decides; on admit
a record is created (consuming a fresh id) and appended, on reject the
candidate is only counted as skipped. -/
def admitCand (existing : List NewsItem) (name : String) (acc : RunAcc)
    (freshId : Nat) (title url : String) : RunAcc × Nat :=
  if isDuplicate (existing ++ acc.newItems) title url then
    ({ acc with skipped := acc.skipped + 1 }, freshId)
  else
    ({ acc with
        newItems := acc.newItems ++ [createNewsItem freshId name title url],
        added := acc.added + 1 }, freshId + 1)

/-- Fold `admitCand` over a list of candidates in arrival order (the body of
the `for (const item of ...)` admission loops in `main`). -/
def admitCands (existing : List NewsItem) (name : String) :
    RunAcc → Nat → List (String × String) → RunAcc × Nat
  | acc, freshId, [] => (acc, freshId)
  | acc, freshId, (t, u) :: rest =>
    let p := admitCand existing name acc freshId t u
    admitCands existing name p.1 p.2 rest

/-- The Deduplication & Merge Engine on a flat candidate list (the spec's
§4.5 contract): run the admission loop against `existing` starting from an
empty accumulator and fresh-id counter 0. -/
def mergeRun (name : String) (existing : List NewsItem)
    (cands : List (String × String)) : RunAcc × Nat :=
  admitCands existing name { newItems := [], added := 0, skipped := 0, results := [] } 0 cands

/-- Append one report entry to the accumulator (`results.push(...)`). -/
def pushResult (acc : RunAcc) (url : String) (isTw : Bool)
    (content err : Option String) : RunAcc :=
  { acc with results := acc.results ++ [{ url := url, isTwitter := isTw, content := content, error := err }] }

/-- The static `DEFAULT_SELECTORS` table of monitor.ts, in insertion order. -/
def DEFAULT_SELECTORS : List (String × String) :=
  [("openai.com", "h3, a[href*=\x22/news/\x22]"),
   ("anthropic.com", "[class*=\x22title\x22], h3"),
   ("windsurf.com", "h2"),
   ("kiro.dev", "h2"),
   ("cursor.com", "h2"),
   ("antigravity.google", "h3"),
   ("developers.googleblog.com", ".post-title")]

/-- The selector lookup of `main`: the first table entry whose domain key is
a substring of the target url (`url.includes(domain)`). -/
def lookupSelector (url : String) : List (String × String) → Option String
  | [] => none
  | (d, sel) :: rest => if containsSub url d then some sel else lookupSelector url rest

/-- The `--source` run mode. -/
inductive SourceMode where
  | web
  | twitter
  | mixed
deriving Repr, DecidableEq

/-- The per-target classification of `main`: in `mixed` mode a url
containing `twitter.com` or `x.com` is social, anything else is web. -/
def classifyTwitter (mode : SourceMode) (url : String) : Bool :=
  match mode with
  | SourceMode.twitter => true
  | SourceMode.web => false
  | SourceMode.mixed => containsSub url "twitter.com" || containsSub url "x.com"

/-- One target url together with its external environment: the twitter page
behaviour (used when classified social), the element lists or exceptions
each web scrape attempt produces (used when classified web), and the URL
resolver for links found on this page. -/
structure TargetSpec where
  url : String
  twitterPage : TwitterPage
  webAttempts : Nat → Except Unit (List WebElement)
  resolve : String → Option String

/-- The twitter branch of `main`'s target loop: the retry executor wraps a
thunk that never throws (`scrapeTwitter` catches everything); on a scraped
post the truncated `twitterTitle` and the link (with the JS `|| url`
fallback) go through the admission step; otherwise nothing is admitted. -/
def twitterStep (existing : List NewsItem) (name : String) (t : TargetSpec)
    (acc : RunAcc) (freshId : Nat) : RunAcc × Nat :=
  match (scrapeWithRetry (fun _ => Except.ok (scrapeTwitter t.resolve t.twitterPage t.url)) MAX_RETRIES).1 with
  | some (some sr) =>
    let title := twitterTitle sr.text
    let itemUrl := jsOr sr.link t.url
    let p := admitCand existing name acc freshId title itemUrl
    (pushResult p.1 t.url true (some sr.text) none, p.2)
  | _ => (pushResult acc t.url true none none, freshId)

/-- The web branch of `main`'s target loop: resolve the selector (explicit
flag first, else the domain table, else report `Missing selector` and skip);
run the scrape attempts through the retry executor; admit each extracted
candidate `(text, link || url)` in page order. -/
def webStep (existing : List NewsItem) (name : String) (argSel : Option String)
    (t : TargetSpec) (acc : RunAcc) (freshId : Nat) : RunAcc × Nat :=
  let sel : Option String :=
    match argSel with
    | some s => some s
    | none => lookupSelector t.url DEFAULT_SELECTORS
  match sel with
  | none => (pushResult acc t.url false none (some "Missing selector"), freshId)
  | some _ =>
    match (scrapeWithRetry (fun i => (t.webAttempts i).map (scrapeWeb t.resolve t.url)) MAX_RETRIES).1 with
    | some items =>
      if items.isEmpty then (pushResult acc t.url false none none, freshId)
      else
        let content := String.intercalate " | " (items.map (fun it => it.text))
        let p := admitCands existing name acc freshId
          (items.map (fun it => (it.text, jsOr it.link t.url)))
        (pushResult p.1 t.url false (some content) none, p.2)
    | none => (pushResult acc t.url false none none, freshId)

/-- One iteration of `main`'s `for (const url of args.urls)` loop. -/
def processTarget (mode : SourceMode) (name : String) (argSel : Option String)
    (existing : List NewsItem) (t : TargetSpec) (acc : RunAcc) (freshId : Nat) :
    RunAcc × Nat :=
  if classifyTwitter mode t.url then twitterStep existing name t acc freshId
  else webStep existing name argSel t acc freshId

/-- `main`'s target loop over all requested urls. -/
def runLoop (mode : SourceMode) (name : String) (argSel : Option String)
    (existing : List NewsItem) : List TargetSpec → RunAcc → Nat → RunAcc
  | [], acc, _ => acc
  | t :: rest, acc, freshId =>
    let p := processTarget mode name argSel existing t acc freshId
    runLoop mode name argSel existing rest p.1 p.2

/-- The observable outcome of a run: the store write (`none` when
`newItems.length === 0` and the file is left untouched), the summary
counters, and the per-target report entries. -/
structure RunOutput where
  write : Option (List NewsItem)
  added : Nat
  skipped : Nat
  results : List ResultEntry
deriving Repr, DecidableEq

/-- `main()` of monitor.ts over an explicit store outcome and target
environments: read the store (errors swallowed to `[]`), iterate the
targets, and write `existingNews ++ newItems` only when at least one item
was admitted. -/
def mainModel (mode : SourceMode) (name : String) (argSel : Option String)
    (store : ReadOutcome) (targets : List TargetSpec) : RunOutput :=
  let existing := readNewsJson store
  let acc := runLoop mode name argSel existing targets
    { newItems := [], added := 0, skipped := 0, results := [] } 0
  { write := if acc.newItems.isEmpty then none else some (existing ++ acc.newItems),
    added := acc.added,
    skipped := acc.skipped,
    results := acc.results }

/-- The candidates a web-classified target surfaces: the extracted
`(text, link || url)` pairs on success, nothing when every retry attempt
failed. -/
def webTargetCandidates (t : TargetSpec) : List (String × String) :=
  match (scrapeWithRetry (fun i => (t.webAttempts i).map (scrapeWeb t.resolve t.url)) MAX_RETRIES).1 with
  | some items => items.map (fun it => (it.text, jsOr it.link t.url))
  | none => []

/-- The candidates a single target surfaces to the admission loop, in
arrival order (empty for failed, empty-result or missing-selector
targets); mirrors the two branches of `processTarget`. -/
def targetCandidates (mode : SourceMode) (argSel : Option String)
    (t : TargetSpec) : List (String × String) :=
  if classifyTwitter mode t.url then
    match (scrapeWithRetry (fun _ => Except.ok (scrapeTwitter t.resolve t.twitterPage t.url)) MAX_RETRIES).1 with
    | some (some sr) => [(twitterTitle sr.text, jsOr sr.link t.url)]
    | _ => []
  else
    match argSel with
    | some _ => webTargetCandidates t
    | none =>
      match lookupSelector t.url DEFAULT_SELECTORS with
      | some _ => webTargetCandidates t
      | none => []

/-- All candidates surfaced by a run, target order then page order. -/
def runCandidates (mode : SourceMode) (argSel : Option String)
    (targets : List TargetSpec) : List (String × String) :=
  (targets.map (targetCandidates mode argSel)).flatten

/-- Two records clash when their titles are case-insensitively equal or
their urls are byte-equal (the negation of invariant I1 for a pair). -/
def recordClash (a b : NewsItem) : Bool :=
  lowerStr a.title == lowerStr b.title || a.url == b.url

/-- Invariant I1 as a boolean check on a collection: no record clashes with
any later record. -/
def storeUniqueB : List NewsItem → Bool
  | [] => true
  | r :: rest => !rest.any (fun x => recordClash r x) && storeUniqueB rest

/-- The url half of invariant I1: no two records have byte-equal urls. -/
def urlUniqueB : List NewsItem → Bool
  | [] => true
  | r :: rest => !rest.any (fun x => r.url == x.url) && urlUniqueB rest

/-- Modelled from the spec: the "static boilerplate denylist (navigation
labels, cookie-consent text, 404 pages, etc.)" that §4.2 step 4 and §6 of
the specification describe.  No such list, and no post-extraction content
filter, exists anywhere under src/; the list below only lets the claim
about it be stated. -/
def BOILERPLATE_DENYLIST : List String :=
  ["404", "Page not found", "Accept all cookies", "Cookie settings", "Menu", "Navigation"]

/-! ## Basic lemmas about the duplicate check and the admission loop -/

theorem isDuplicate_append (l l' : List NewsItem) (t u : String) :
    isDuplicate (l ++ l') t u = (isDuplicate l t u || isDuplicate l' t u) := by
  simp [isDuplicate, List.any_append]

theorem isDuplicate_of_mem {news : List NewsItem} {r : NewsItem} {t u : String}
    (hr : r ∈ news) (h : lowerStr r.title = lowerStr t ∨ r.url = u) :
    isDuplicate news t u = true := by
  simp only [isDuplicate, List.any_eq_true]
  exact ⟨r, hr, by rcases h with h | h <;> simp [h]⟩

theorem admitCand_results (ex : List NewsItem) (n : String) (acc : RunAcc)
    (fid : Nat) (t u : String) :
    (admitCand ex n acc fid t u).1.results = acc.results := by
  unfold admitCand
  split <;> rfl

theorem admitCands_results (ex : List NewsItem) (n : String) :
    ∀ (cs : List (String × String)) (acc : RunAcc) (fid : Nat),
      (admitCands ex n acc fid cs).1.results = acc.results := by
  intro cs
  induction cs with
  | nil => intro acc fid; rfl
  | cons c rest ih =>
    intro acc fid
    obtain ⟨t, u⟩ := c
    simp only [admitCands]
    rw [ih]
    exact admitCand_results ex n acc fid t u

theorem admitCands_append (ex : List NewsItem) (n : String) :
    ∀ (cs1 cs2 : List (String × String)) (acc : RunAcc) (fid : Nat),
      admitCands ex n acc fid (cs1 ++ cs2)
        = admitCands ex n (admitCands ex n acc fid cs1).1 (admitCands ex n acc fid cs1).2 cs2 := by
  intro cs1
  induction cs1 with
  | nil => intro cs2 acc fid; rfl
  | cons c rest ih =>
    intro cs2 acc fid
    obtain ⟨t, u⟩ := c
    simp only [List.cons_append, admitCands]
    exact ih cs2 _ _

theorem admitCands_newItems_mono (ex : List NewsItem) (n : String) :
    ∀ (cs : List (String × String)) (acc : RunAcc) (fid : Nat),
      ∃ s, (admitCands ex n acc fid cs).1.newItems = acc.newItems ++ s := by
  intro cs
  induction cs with
  | nil => intro acc fid; exact ⟨[], by simp [admitCands]⟩
  | cons c rest ih =>
    intro acc fid
    obtain ⟨t, u⟩ := c
    simp only [admitCands]
    unfold admitCand
    split
    · exact ih _ _
    · obtain ⟨s, hs⟩ := ih { acc with
        newItems := acc.newItems ++ [createNewsItem fid n t u],
        added := acc.added + 1 } (fid + 1)
      exact ⟨createNewsItem fid n t u :: s, by simpa using hs⟩

theorem admitCands_skip (ex : List NewsItem) (n : String) :
    ∀ (cs : List (String × String)) (acc : RunAcc) (fid : Nat),
      (∀ c ∈ cs, isDuplicate ex c.1 c.2 = true) →
      (admitCands ex n acc fid cs).1.newItems = acc.newItems
        ∧ (admitCands ex n acc fid cs).1.added = acc.added
        ∧ (admitCands ex n acc fid cs).2 = fid := by
  intro cs
  induction cs with
  | nil => intro acc fid _; exact ⟨rfl, rfl, rfl⟩
  | cons c rest ih =>
    intro acc fid h
    obtain ⟨t, u⟩ := c
    have hdup : isDuplicate (ex ++ acc.newItems) t u = true := by
      rw [isDuplicate_append, h (t, u) (List.mem_cons_self _ _)]
      rfl
    simp only [admitCands]
    unfold admitCand
    rw [hdup]
    simp only [if_pos rfl]
    exact ih _ fid (fun c hc => h c (List.mem_cons_of_mem _ hc))

/-! ## Lemmas about the uniqueness invariant -/

theorem storeUniqueB_append_singleton (x : NewsItem) :
    ∀ l : List NewsItem,
      storeUniqueB (l ++ [x]) = (storeUniqueB l && l.all (fun r => !recordClash r x)) := by
  intro l
  induction l with
  | nil => simp [storeUniqueB]
  | cons r rest ih =>
    simp only [List.cons_append, storeUniqueB, List.any_append, List.all_cons, ih]
    cases h1 : rest.any (fun y => recordClash r y) <;>
      cases h2 : recordClash r x <;>
        simp [storeUniqueB, List.any_cons, h1, h2, Bool.and_comm, Bool.and_assoc, Bool.and_left_comm]
    exact ih

theorem urlUniqueB_append_singleton (x : NewsItem) :
    ∀ l : List NewsItem,
      urlUniqueB (l ++ [x]) = (urlUniqueB l && l.all (fun r => !(r.url == x.url))) := by
  intro l
  induction l with
  | nil => simp [urlUniqueB]
  | cons r rest ih =>
    simp only [List.cons_append, urlUniqueB, List.any_append, List.all_cons, ih]
    cases h1 : rest.any (fun y => r.url == y.url) <;>
      cases h2 : r.url == x.url <;>
        simp [urlUniqueB, List.any_cons, h1, h2, Bool.and_comm, Bool.and_assoc, Bool.and_left_comm]
    exact ih

theorem isDuplicate_false_pointwise {l : List NewsItem} {t u : String}
    (h : isDuplicate l t u = false) :
    ∀ x ∈ l, (lowerStr x.title == lowerStr t || x.url == u) = false := by
  intro x hx
  simp only [isDuplicate, List.any_eq_false] at h
  simpa using h x hx

theorem admitCands_unique (ex : List NewsItem) (n : String) :
    ∀ (cs : List (String × String)) (acc : RunAcc) (fid : Nat),
      storeUniqueB (ex ++ acc.newItems) = true →
      (∀ c ∈ cs, cleanTitle c.1 = c.1) →
      storeUniqueB (ex ++ (admitCands ex n acc fid cs).1.newItems) = true := by
  intro cs
  induction cs with
  | nil => intro acc fid h _; exact h
  | cons c rest ih =>
    intro acc fid h hclean
    obtain ⟨t, u⟩ := c
    have ht : cleanTitle t = t := hclean (t, u) (List.mem_cons_self _ _)
    simp only [admitCands]
    unfold admitCand
    cases hdup : isDuplicate (ex ++ acc.newItems) t u with
    | true =>
      simp only [if_pos rfl]
      exact ih _ fid h (fun c hc => hclean c (List.mem_cons_of_mem _ hc))
    | false =>
      rw [if_neg (by simp)]
      apply ih _ (fid + 1) _ (fun c hc => hclean c (List.mem_cons_of_mem _ hc))
      have hassoc : ex ++ (acc.newItems ++ [createNewsItem fid n t u])
          = (ex ++ acc.newItems) ++ [createNewsItem fid n t u] := by
        simp
      rw [hassoc, storeUniqueB_append_singleton, h, Bool.true_and, List.all_eq_true]
      intro r hr
      have hd := isDuplicate_false_pointwise hdup r hr
      simp only [recordClash, createNewsItem, ht, Bool.not_eq_true']
      exact hd

theorem admitCands_urlUnique (ex : List NewsItem) (n : String) :
    ∀ (cs : List (String × String)) (acc : RunAcc) (fid : Nat),
      urlUniqueB (ex ++ acc.newItems) = true →
      urlUniqueB (ex ++ (admitCands ex n acc fid cs).1.newItems) = true := by
  intro cs
  induction cs with
  | nil => intro acc fid h; exact h
  | cons c rest ih =>
    intro acc fid h
    obtain ⟨t, u⟩ := c
    simp only [admitCands]
    unfold admitCand
    cases hdup : isDuplicate (ex ++ acc.newItems) t u with
    | true =>
      simp only [if_pos rfl]
      exact ih _ fid h
    | false =>
      rw [if_neg (by simp)]
      apply ih _ (fid + 1)
      have hassoc : ex ++ (acc.newItems ++ [createNewsItem fid n t u])
          = (ex ++ acc.newItems) ++ [createNewsItem fid n t u] := by
        simp
      rw [hassoc, urlUniqueB_append_singleton, h, Bool.true_and, List.all_eq_true]
      intro r hr
      have hd := isDuplicate_false_pointwise hdup r hr
      simp only [createNewsItem, Bool.not_eq_true']
      exact Bool.or_eq_false_iff.mp hd |>.2

/-! ## Lemmas about the retry executor -/

theorem retryGo_first_ok (fn : Nat → Except Unit α) (i rem : Nat) (a : α)
    (hrem : 1 ≤ rem) (h : fn i = Except.ok a) : retryGo fn i rem = (some a, []) := by
  match rem, hrem with
  | 1, _ => simp [retryGo, h]
  | rem + 2, _ => simp [retryGo, h]

theorem retryGo_all_fail (fn : Nat → Except Unit α) :
    ∀ (rem i : Nat), 1 ≤ i →
      (∀ j, i ≤ j → j < i + rem → fn j = Except.error ()) →
      retryGo fn i rem
        = (none, (List.range (rem - 1)).map (fun j => RETRY_DELAY_MS * 2 ^ (i - 1 + j))) := by
  intro rem
  induction rem using Nat.strong_induction_on with
  | _ rem ih =>
    intro i hi h
    match rem with
    | 0 => simp [retryGo]
    | 1 =>
      have h1 : fn i = Except.error () := h i le_rfl (by omega)
      simp [retryGo, h1]
    | rem + 2 =>
      have h1 : fn i = Except.error () := h i le_rfl (by omega)
      have ihr := ih (rem + 1) (by omega) (i + 1) (by omega)
        (fun j hj1 hj2 => h j (by omega) (by omega))
      simp only [retryGo, h1, ihr]
      have hrange : List.range (rem + 2 - 1) = 0 :: (List.range (rem + 1 - 1)).map Nat.succ := by
        simpa using List.range_succ_eq_map (rem)
      rw [hrange]
      simp only [List.map_cons, List.map_map]
      congr 2
      refine List.map_congr_left ?_
      intro x _
      simp only [Function.comp_apply]
      have hx : i + 1 - 1 + x = i - 1 + (x + 1) := by omega
      rw [hx]

theorem retryGo_stop (fn : Nat → Except Unit α) (a : α) :
    ∀ (rem i k : Nat), 1 ≤ i → i ≤ k → k < i + rem →
      (∀ j, i ≤ j → j < k → fn j = Except.error ()) →
      fn k = Except.ok a →
      retryGo fn i rem
        = (some a, (List.range (k - i)).map (fun j => RETRY_DELAY_MS * 2 ^ (i - 1 + j))) := by
  intro rem
  induction rem using Nat.strong_induction_on with
  | _ rem ih =>
    intro i k hi hik hk hfail hok
    match rem with
    | 0 => omega
    | 1 =>
      have : k = i := by omega
      subst this
      simp [retryGo, hok]
    | rem + 2 =>
      by_cases hki : k = i
      · subst hki
        simp [retryGo, hok]
      · have h1 : fn i = Except.error () := hfail i le_rfl (by omega)
        have ihr := ih (rem + 1) (by omega) (i + 1) k (by omega) (by omega) (by omega)
          (fun j hj1 hj2 => hfail j (by omega) hj2) hok
        simp only [retryGo, h1, ihr]
        have hsub : k - i = (k - (i + 1)) + 1 := by omega
        rw [hsub]
        have hrange : List.range ((k - (i + 1)) + 1)
            = 0 :: (List.range (k - (i + 1))).map Nat.succ := by
          simpa using List.range_succ_eq_map (k - (i + 1))
        rw [hrange]
        simp only [List.map_cons, List.map_map]
        congr 2
        refine List.map_congr_left ?_
        intro x _
        simp only [Function.comp_apply]
        have hx : i + 1 - 1 + x = i - 1 + (x + 1) := by omega
        rw [hx]

/-- An attempt thunk that always succeeds makes the retry executor return
its value after a single attempt, with no back-off sleeps — this is how
`scrapeWithRetry(() => scrapeTwitter(page, url))` always behaves. -/
theorem scrapeWithRetry_const_ok (v : α) :
    scrapeWithRetry (fun _ => Except.ok v) MAX_RETRIES = (some v, []) :=
  retryGo_first_ok _ 1 MAX_RETRIES v (by decide) rfl

/-! ## Claim C8 -/

/-- C8: `scrapeWithRetry` returns the attempt's value immediately on the
first success; a failure with attempts remaining is followed by a sleep of
exactly `RETRY_DELAY_MS * 2^(attemptNumber-1)` before the next attempt,
with no delay before the first attempt; and once every attempt in the
budget has failed it returns `null` instead of propagating the error. -/
theorem C8_retry_backoff (fn : Nat → Except Unit α) (retries : Nat) (a : α) :
    (1 ≤ retries → fn 1 = Except.ok a → scrapeWithRetry fn retries = (some a, []))
    ∧ (∀ k, 1 ≤ k → k ≤ retries →
        (∀ i, 1 ≤ i → i < k → fn i = Except.error ()) → fn k = Except.ok a →
        scrapeWithRetry fn retries
          = (some a, (List.range (k - 1)).map (fun j => RETRY_DELAY_MS * 2 ^ j)))
    ∧ ((∀ i, 1 ≤ i → i ≤ retries → fn i = Except.error ()) →
        scrapeWithRetry fn retries
          = (none, (List.range (retries - 1)).map (fun j => RETRY_DELAY_MS * 2 ^ j))) := by
  refine ⟨fun hr h => retryGo_first_ok fn 1 retries a hr h,
    fun k hk1 hk2 hfail hok => ?_, fun hfail => ?_⟩
  · have := retryGo_stop fn a retries 1 k le_rfl hk1 (by omega)
      (fun j hj1 hj2 => hfail j hj1 hj2) hok
    simpa using this
  · have := retryGo_all_fail fn retries 1 le_rfl (fun j hj1 hj2 => hfail j hj1 (by omega))
    simpa using this

/-- Witness for C8: with a budget of 3, attempt 1 fails, attempt 2 succeeds
with value 7; the executor returns 7 after a single 2000 ms back-off. -/
theorem C8_retry_backoff_witness :
    scrapeWithRetry (fun i => if i = 2 then Except.ok 7 else Except.error ()) 3
      = (some 7, [2000]) := by
  have h := (C8_retry_backoff (fun i => if i = 2 then Except.ok 7 else Except.error ()) 3 7).2.1
    2 (by omega) (by omega)
    (fun i h1 h2 => by
      have : i = 1 := by omega
      subst this
      rfl)
    rfl
  simpa using h

/-! ## Claim C5 -/

/-- C5 counterexample: on a social target whose post-container wait times
out, the timeout never reaches the Retry Executor — `scrapeTwitterBody`
raises it, the surrounding catch in `scrapeTwitter` converts it to `null`,
and the executor sees a successful attempt: it returns after one attempt
with no back-off sleeps instead of retrying up to the budget. -/
theorem C5_social_timeout_cex :
    scrapeTwitterBody (fun _ => none)
        { gotoFails := false, waitTimesOut := true, pinned := none, firstTweet := none }
        "https://x.com/profile" = Except.error ScrapeError.timeout
    ∧ scrapeTwitter (fun _ => none)
        { gotoFails := false, waitTimesOut := true, pinned := none, firstTweet := none }
        "https://x.com/profile" = none
    ∧ scrapeWithRetry (fun _ => Except.ok (scrapeTwitter (fun _ => none)
        { gotoFails := false, waitTimesOut := true, pinned := none, firstTweet := none }
        "https://x.com/profile")) MAX_RETRIES = (some none, []) :=
  ⟨rfl, rfl, rfl⟩

/-- C5 amended: every exception inside the social strategy — the
container-wait timeout included — is caught within `scrapeTwitter` itself
and turned into `null`, so the thunk handed to the Retry Executor always
succeeds and the executor performs exactly one attempt with no retry and
no back-off sleep. -/
theorem C5_social_errors_swallowed (resolve : String → Option String)
    (p : TwitterPage) (url : String) :
    scrapeWithRetry (fun _ => Except.ok (scrapeTwitter resolve p url)) MAX_RETRIES
      = (some (scrapeTwitter resolve p url), [])
    ∧ (p.gotoFails = false → p.waitTimesOut = true →
        scrapeTwitterBody resolve p url = Except.error ScrapeError.timeout
        ∧ scrapeTwitter resolve p url = none)
    ∧ (p.gotoFails = true → scrapeTwitter resolve p url = none) := by
  refine ⟨scrapeWithRetry_const_ok _, fun h1 h2 => ⟨?_, ?_⟩, fun h1 => ?_⟩
  · simp [scrapeTwitterBody, h1, h2]
  · simp [scrapeTwitter, scrapeTwitterBody, h1, h2]
  · simp [scrapeTwitter, scrapeTwitterBody, h1]

/-- Witness for C5 amended: a concrete timing-out page yields `null`. -/
theorem C5_social_errors_swallowed_witness :
    scrapeTwitter (fun _ => none)
        { gotoFails := false, waitTimesOut := true, pinned := none, firstTweet := none }
        "https://x.com/p" = none :=
  ((C5_social_errors_swallowed (fun _ => none)
      { gotoFails := false, waitTimesOut := true, pinned := none, firstTweet := none }
      "https://x.com/p").2.1 rfl rfl).2

/-! ## Claim C3 -/

/-- C3 counterexample: with a store file that exists but fails to parse
(`ReadOutcome.parseError`), the run is not aborted — the error is swallowed
into an empty collection and the run proceeds to scrape, merge and write:
here it admits one candidate and performs a store write. -/
theorem C3_store_read_error_cex :
    (mainModel SourceMode.web "src" (some "h2") ReadOutcome.parseError
        [TargetSpec.mk "https://e.com" (TwitterPage.mk false false none none)
          (fun _ => Except.ok [WebElement.mk "T" none none none]) (fun _ => none)]).write
      = some [{ id := 0, source := "src", title := "T", date := 0, url := "https://e.com#t" }] :=
  rfl

/-- C3 amended: `readNewsJson` catches read and parse failures and returns
the empty collection, so a run over an unreadable or unparsable store
behaves exactly like a run over an absent store: it proceeds to scrape,
merge and (when items are admitted) write. -/
theorem C3_read_errors_nonfatal (mode : SourceMode) (name : String)
    (argSel : Option String) (targets : List TargetSpec) :
    mainModel mode name argSel ReadOutcome.parseError targets
        = mainModel mode name argSel ReadOutcome.absent targets
    ∧ mainModel mode name argSel ReadOutcome.readError targets
        = mainModel mode name argSel ReadOutcome.absent targets
    ∧ readNewsJson ReadOutcome.parseError = []
    ∧ readNewsJson ReadOutcome.readError = [] :=
  ⟨rfl, rfl, rfl, rfl⟩

/-! ## Claim C7 -/

/-- C7 counterexample: an element with no discoverable href but with an
`id` attribute does not fall through to the synthesized title-slug key —
the `url#id` anchor fallback fires first. -/
theorem C7_link_fallback_cex :
    elementLink (fun _ => none) "https://e.com"
        { text := "hello", href := none, anchorHref := none, idAttr := some "x" }
      = "https://e.com#x"
    ∧ "https://e.com#x" ≠ "https://e.com#" ++ slugify "hello" := by
  exact ⟨rfl, by decide⟩

/-- C7 amended: link resolution is total (never throws; variant-1
`resolveUrl` returns the raw href when parsing fails), and when the found
href is absent or fails to resolve the link falls back first to `url#id`
when the element carries an `id` attribute and only otherwise to the
deterministic synthesized key `url#slugify(title)`; the slug is bounded by
50 characters. -/
theorem C7_link_fallback_amended (resolve : String → Option String)
    (pageUrl : String) (el : WebElement) :
    ((match el.href with
      | some h => some h
      | none => el.anchorHref).bind resolve = none →
      elementLink resolve pageUrl el
        = match el.idAttr with
          | some i => pageUrl ++ "#" ++ i
          | none => pageUrl ++ "#" ++ slugify (trimStr el.text))
    ∧ (∀ rel, resolve rel = none → resolveUrl resolve rel = rel)
    ∧ (∀ t, elementLink resolve pageUrl
          { text := t, href := none, anchorHref := none, idAttr := none }
        = pageUrl ++ "#" ++ slugify (trimStr t))
    ∧ (∀ s, (slugify s).data.length ≤ 50) := by
  refine ⟨fun h => ?_, fun rel h => ?_, fun t => rfl, fun s => ?_⟩
  · unfold elementLink
    cases hh : el.href with
    | some hr =>
      simp only [hh, Option.bind] at h ⊢
      simp [h]
    | none =>
      cases ha : el.anchorHref with
      | some hr =>
        simp only [hh, ha, Option.bind] at h ⊢
        simp [h]
      | none => simp [hh, ha]
  · simp [resolveUrl, h]
  · simp [slugify, List.length_take]

/-- Witness for C7 amended: an unresolvable href on an element without an
`id` falls back to the title slug. -/
theorem C7_link_fallback_amended_witness :
    elementLink (fun _ => none) "https://e.com"
        { text := "hello world", href := some "::bad::", anchorHref := none, idAttr := none }
      = "https://e.com#" ++ slugify (trimStr "hello world") :=
  (C7_link_fallback_amended (fun _ => none) "https://e.com"
      { text := "hello world", href := some "::bad::", anchorHref := none, idAttr := none }).1 rfl

/-! ## Claim C6 -/

/-- C6 counterexample: an element whose text is the denylist string `404`
still becomes a candidate — `scrapeWeb` applies no boilerplate filter. -/
theorem C6_boilerplate_cex :
    "404" ∈ BOILERPLATE_DENYLIST
    ∧ containsSub (trimStr "404") "404" = true
    ∧ scrapeWeb (fun _ => none) "https://e.com"
        [{ text := "404", href := none, anchorHref := none, idAttr := none }]
      = [{ text := "404", link := "https://e.com#404" }] := by
  exact ⟨by decide, by decide, rfl⟩

/-- C6 amended: `scrapeWeb` performs no content-based filtering at all —
the only rejection is of elements whose text is empty after trimming;
every other matched element becomes a candidate, denylisted or not. -/
theorem C6_no_content_filter (resolve : String → Option String) (pageUrl : String) :
    (∀ els : List WebElement,
      scrapeWeb resolve pageUrl els
        = (els.filter (fun el => !(trimStr el.text == ""))).map
            (fun el => { text := trimStr el.text, link := elementLink resolve pageUrl el }))
    ∧ ∀ (els : List WebElement) (el : WebElement), el ∈ els → trimStr el.text ≠ "" →
        ({ text := trimStr el.text, link := elementLink resolve pageUrl el } : ScrapeResult)
          ∈ scrapeWeb resolve pageUrl els := by
  have hchar : ∀ els : List WebElement,
      scrapeWeb resolve pageUrl els
        = (els.filter (fun el => !(trimStr el.text == ""))).map
            (fun el => { text := trimStr el.text, link := elementLink resolve pageUrl el }) := by
    intro els
    induction els with
    | nil => rfl
    | cons e rest ih =>
      simp only [scrapeWeb, List.filterMap_cons, List.filter_cons] at ih ⊢
      cases h : trimStr e.text == "" with
      | true => simpa [h] using ih
      | false => simpa [h] using ih
  refine ⟨hchar, fun els el hmem hne => ?_⟩
  rw [hchar]
  exact List.mem_map.mpr ⟨el, List.mem_filter.mpr ⟨hmem, by simp [hne]⟩, rfl⟩

/-- Witness for C6 amended: the `404` element is a member of the
extraction result. -/
theorem C6_no_content_filter_witness :
    ({ text := trimStr "404",
       link := elementLink (fun _ => none) "https://e.com"
         { text := "404", href := none, anchorHref := none, idAttr := none } } : ScrapeResult)
      ∈ scrapeWeb (fun _ => none) "https://e.com"
        [{ text := "404", href := none, anchorHref := none, idAttr := none }] :=
  (C6_no_content_filter (fun _ => none) "https://e.com").2
    [{ text := "404", href := none, anchorHref := none, idAttr := none }]
    { text := "404", href := none, anchorHref := none, idAttr := none }
    (List.mem_singleton.mpr rfl) (by decide)

/-! ## Claim C10 -/

/-- C10 counterexample: a scraped social post of 100 characters or fewer is
not stored unchanged — the stored title is its whitespace-normalized form:
post text `a␣␣b` is stored with title `a b`. -/
theorem C10_twitter_title_cex :
    twitterTitle "a  b" = "a  b"
    ∧ (twitterStep [] "n"
        (TargetSpec.mk "https://x.com/p"
          (TwitterPage.mk false false (some (Tweet.mk (some "a  b") none)) none)
          (fun _ => Except.error ()) (fun _ => none))
        (RunAcc.mk [] 0 0 []) 0).1.newItems
      = [{ id := 0, source := "n", title := "a b", date := 0, url := "https://x.com/p" }]
    ∧ ("a b" : String) ≠ "a  b" :=
  ⟨rfl, rfl, by decide⟩

/-- C10 amended: the social branch truncates the post text to its first
100 characters plus `...` (shorter text passes through `twitterTitle`
unchanged), performs the duplicate check against that truncated —
un-normalized — title, and stores `cleanTitle (twitterTitle text)`,
i.e. the whitespace-normalized truncation, as the record title. -/
theorem C10_twitter_title_amended (existing : List NewsItem) (name : String)
    (t : TargetSpec) (acc : RunAcc) (freshId : Nat) (sr : ScrapeResult)
    (h : scrapeTwitter t.resolve t.twitterPage t.url = some sr) :
    (100 < sr.text.data.length →
        (twitterTitle sr.text).data = sr.text.data.take 100 ++ ['.', '.', '.'])
    ∧ (sr.text.data.length ≤ 100 → twitterTitle sr.text = sr.text)
    ∧ twitterStep existing name t acc freshId
        = (if isDuplicate (existing ++ acc.newItems) (twitterTitle sr.text) (jsOr sr.link t.url)
           then (pushResult { acc with skipped := acc.skipped + 1 } t.url true (some sr.text) none,
                 freshId)
           else (pushResult { acc with
                   newItems := acc.newItems
                     ++ [{ id := freshId, source := name,
                           title := cleanTitle (twitterTitle sr.text), date := 0,
                           url := jsOr sr.link t.url }],
                   added := acc.added + 1 } t.url true (some sr.text) none,
                 freshId + 1)) := by
  refine ⟨fun hlen => ?_, fun hlen => ?_, ?_⟩
  · simp only [twitterTitle]
    rw [if_pos hlen]
  · have hnot : ¬ (100 < sr.text.data.length) := by omega
    simp only [twitterTitle]
    rw [if_neg hnot, List.take_of_length_le hlen, List.append_nil]
  · cases hdup : isDuplicate (existing ++ acc.newItems) (twitterTitle sr.text) (jsOr sr.link t.url) with
    | true => simp [twitterStep, scrapeWithRetry_const_ok, h, admitCand, hdup, createNewsItem]
    | false => simp [twitterStep, scrapeWithRetry_const_ok, h, admitCand, hdup, createNewsItem]

/-- Witness for C10 amended: short post text passes through `twitterTitle`
unchanged on a concrete page. -/
theorem C10_twitter_title_amended_witness :
    twitterTitle "abc" = "abc" :=
  (C10_twitter_title_amended [] "n"
      (TargetSpec.mk "https://x.com/p"
        (TwitterPage.mk false false (some (Tweet.mk (some "abc") none)) none)
        (fun _ => Except.error ()) (fun _ => none))
      (RunAcc.mk [] 0 0 []) 0
      (ScrapeResult.mk "abc" "https://x.com/p") rfl).2.1 (by decide)

/-! ## Claim C1 -/

/-- C1 counterexample: the duplicate check runs on the raw candidate title
while `createNewsItem` stores the whitespace-normalized title, so the run
`[("a b", "u1"), ("a  b", "u2")]` (second title has a double space) admits
both candidates and the post-merge store holds two records with byte-equal
titles `a b` — invariant I1 is violated. -/
theorem C1_store_uniqueness_cex :
    ((mergeRun "s" [] [("a b", "u1"), ("a  b", "u2")]).1.newItems.map NewsItem.title)
      = ["a b", "a b"]
    ∧ storeUniqueB ((mergeRun "s" [] [("a b", "u1"), ("a  b", "u2")]).1.newItems) = false
    ∧ (mergeRun "s" [] [("a b", "u1"), ("a  b", "u2")]).1.added = 2 := by
  decide

/-- C1 amended: the url half of invariant I1 holds unconditionally, and the
title half holds provided every candidate title is already
whitespace-normalized (`cleanTitle` is the identity on it) — in general the
rejection check compares the raw candidate title against the normalized
stored titles, so distinct raw titles with equal normalized forms can both
be admitted. -/
theorem C1_store_uniqueness_amended (name : String) (existing : List NewsItem)
    (cands : List (String × String)) :
    (storeUniqueB existing = true → (∀ c ∈ cands, cleanTitle c.1 = c.1) →
      storeUniqueB (existing ++ (mergeRun name existing cands).1.newItems) = true)
    ∧ (urlUniqueB existing = true →
      urlUniqueB (existing ++ (mergeRun name existing cands).1.newItems) = true) := by
  constructor
  · intro h hclean
    exact admitCands_unique existing name cands _ 0 (by simpa using h) hclean
  · intro h
    exact admitCands_urlUnique existing name cands _ 0 (by simpa using h)

/-- Witness for C1 amended: a run with normalized candidate titles against
a store with one record preserves invariant I1. -/
theorem C1_store_uniqueness_amended_witness :
    storeUniqueB ([{ id := 9, source := "s", title := "Old", date := 0, url := "u0" }]
      ++ (mergeRun "s" [{ id := 9, source := "s", title := "Old", date := 0, url := "u0" }]
            [("New item", "u1"), ("new item", "u2")]).1.newItems) = true :=
  (C1_store_uniqueness_amended "s"
      [{ id := 9, source := "s", title := "Old", date := 0, url := "u0" }]
      [("New item", "u1"), ("new item", "u2")]).1 (by decide) (by decide)

/-! ## Claim C4 -/

/-- C4 counterexample: two candidates with case-insensitively equal raw
titles (`A␣␣B` and `a␣␣b`), the second arriving after the first, are BOTH
admitted: the first is stored with the normalized title `A B`, against which
the second's raw title `a␣␣b` no longer matches case-insensitively. -/
theorem C4_same_run_dedup_cex :
    lowerStr "A  B" = lowerStr "a  b"
    ∧ isDuplicate [] "A  B" "u1" = false
    ∧ (mergeRun "s" [] [("A  B", "u1"), ("a  b", "u2")]).1.newItems.length = 2
    ∧ (mergeRun "s" [] [("A  B", "u1"), ("a  b", "u2")]).1.added = 2 := by
  decide

/-- C4 amended: once a first candidate `(t1, u1)` is admitted, any later
candidate in the same run whose title case-insensitively equals the
admitted record's stored (normalized) title, or whose url equals it
byte-for-byte, is rejected against the in-run accumulator: the admitted
list is exactly that of the run without the later duplicate. -/
theorem C4_same_run_dedup_amended (name : String) (existing : List NewsItem)
    (t1 u1 t2 u2 : String) (mid : List (String × String))
    (h1 : isDuplicate existing t1 u1 = false)
    (h2 : lowerStr t2 = lowerStr (cleanTitle t1) ∨ u2 = u1) :
    (mergeRun name existing ((t1, u1) :: (mid ++ [(t2, u2)]))).1.newItems
      = (mergeRun name existing ((t1, u1) :: mid)).1.newItems := by
  have hadm : admitCand existing name (RunAcc.mk [] 0 0 []) 0 t1 u1
      = (RunAcc.mk [createNewsItem 0 name t1 u1] 1 0 [], 1) := by
    unfold admitCand
    rw [if_neg]
    · rfl
    · simp [h1]
  show (admitCands existing name (RunAcc.mk [] 0 0 []) 0
      ((t1, u1) :: (mid ++ [(t2, u2)]))).1.newItems
    = (admitCands existing name (RunAcc.mk [] 0 0 []) 0 ((t1, u1) :: mid)).1.newItems
  simp only [admitCands, hadm]
  rw [admitCands_append existing name mid [(t2, u2)]]
  obtain ⟨s, hs⟩ := admitCands_newItems_mono existing name mid
    (RunAcc.mk [createNewsItem 0 name t1 u1] 1 0 []) 1
  have hr1 : createNewsItem 0 name t1 u1
      ∈ (admitCands existing name (RunAcc.mk [createNewsItem 0 name t1 u1] 1 0 []) 1 mid).1.newItems := by
    rw [hs]
    exact List.mem_append_left _ (List.mem_singleton.mpr rfl)
  have hdup2 : isDuplicate
      (existing
        ++ (admitCands existing name (RunAcc.mk [createNewsItem 0 name t1 u1] 1 0 []) 1 mid).1.newItems)
      t2 u2 = true := by
    refine isDuplicate_of_mem (List.mem_append_right _ hr1) ?_
    rcases h2 with h | h
    · left
      simpa [createNewsItem] using h.symm
    · right
      simpa [createNewsItem] using h.symm
  simp only [admitCands]
  unfold admitCand
  rw [hdup2]
  simp

/-- Witness for C4 amended: a later candidate whose title matches the first
admitted record's normalized title case-insensitively is rejected. -/
theorem C4_same_run_dedup_amended_witness :
    (mergeRun "s" [] [("Story", "u1"), ("story", "u2")]).1.newItems
      = (mergeRun "s" [] [("Story", "u1")]).1.newItems :=
  C4_same_run_dedup_amended "s" [] "Story" "u1" "story" "u2" [] (by decide) (by decide)

/-! ## Lemmas about the target loop -/

theorem pushResult_fields (acc : RunAcc) (url : String) (tw : Bool) (c e : Option String) :
    (pushResult acc url tw c e).newItems = acc.newItems
    ∧ (pushResult acc url tw c e).added = acc.added
    ∧ (pushResult acc url tw c e).results = acc.results
        ++ [{ url := url, isTwitter := tw, content := c, error := e }] :=
  ⟨rfl, rfl, rfl⟩

/-- The twitter branch admits nothing when every scraped post (there is at
most one) already duplicates the existing store. -/
theorem twitterStep_skip (ex : List NewsItem) (name : String) (t : TargetSpec)
    (acc : RunAcc) (fid : Nat)
    (h : ∀ sr, scrapeTwitter t.resolve t.twitterPage t.url = some sr →
      isDuplicate ex (twitterTitle sr.text) (jsOr sr.link t.url) = true) :
    (twitterStep ex name t acc fid).1.newItems = acc.newItems
    ∧ (twitterStep ex name t acc fid).1.added = acc.added
    ∧ (twitterStep ex name t acc fid).2 = fid := by
  unfold twitterStep
  rw [scrapeWithRetry_const_ok]
  cases hsr : scrapeTwitter t.resolve t.twitterPage t.url with
  | none => refine ⟨?_, ?_, ?_⟩ <;> rfl
  | some sr =>
    have hdup2 : isDuplicate (ex ++ acc.newItems) (twitterTitle sr.text)
        (jsOr sr.link t.url) = true := by
      rw [isDuplicate_append, h sr hsr]
      rfl
    refine ⟨?_, ?_, ?_⟩ <;> simp [admitCand, hdup2, pushResult]

/-- The web branch admits nothing when every extracted candidate already
duplicates the existing store. -/
theorem webStep_skip (ex : List NewsItem) (name : String) (argSel : Option String)
    (t : TargetSpec) (acc : RunAcc) (fid : Nat)
    (h : ∀ items,
      (scrapeWithRetry (fun i => (t.webAttempts i).map (scrapeWeb t.resolve t.url)) MAX_RETRIES).1
        = some items →
      ∀ c ∈ items.map (fun it => (it.text, jsOr it.link t.url)),
        isDuplicate ex c.1 c.2 = true) :
    (webStep ex name argSel t acc fid).1.newItems = acc.newItems
    ∧ (webStep ex name argSel t acc fid).1.added = acc.added
    ∧ (webStep ex name argSel t acc fid).2 = fid := by
  unfold webStep
  have hcore : ∀ (s : String),
      ((match (scrapeWithRetry (fun i => (t.webAttempts i).map (scrapeWeb t.resolve t.url)) MAX_RETRIES).1 with
        | some items =>
          if items.isEmpty then (pushResult acc t.url false none none, fid)
          else
            let content := String.intercalate " | " (items.map (fun it => it.text))
            let p := admitCands ex name acc fid
              (items.map (fun it => (it.text, jsOr it.link t.url)))
            (pushResult p.1 t.url false (some content) none, p.2)
        | none => (pushResult acc t.url false none none, fid)) : RunAcc × Nat).1.newItems
          = acc.newItems
      ∧ ((match (scrapeWithRetry (fun i => (t.webAttempts i).map (scrapeWeb t.resolve t.url)) MAX_RETRIES).1 with
        | some items =>
          if items.isEmpty then (pushResult acc t.url false none none, fid)
          else
            let content := String.intercalate " | " (items.map (fun it => it.text))
            let p := admitCands ex name acc fid
              (items.map (fun it => (it.text, jsOr it.link t.url)))
            (pushResult p.1 t.url false (some content) none, p.2)
        | none => (pushResult acc t.url false none none, fid)) : RunAcc × Nat).1.added
          = acc.added
      ∧ ((match (scrapeWithRetry (fun i => (t.webAttempts i).map (scrapeWeb t.resolve t.url)) MAX_RETRIES).1 with
        | some items =>
          if items.isEmpty then (pushResult acc t.url false none none, fid)
          else
            let content := String.intercalate " | " (items.map (fun it => it.text))
            let p := admitCands ex name acc fid
              (items.map (fun it => (it.text, jsOr it.link t.url)))
            (pushResult p.1 t.url false (some content) none, p.2)
        | none => (pushResult acc t.url false none none, fid)) : RunAcc × Nat).2 = fid := by
    intro _
    cases hw : (scrapeWithRetry (fun i => (t.webAttempts i).map (scrapeWeb t.resolve t.url)) MAX_RETRIES).1 with
    | none => exact ⟨rfl, rfl, rfl⟩
    | some items =>
      have hcand : ∀ c ∈ items.map (fun it => (it.text, jsOr it.link t.url)),
          isDuplicate ex c.1 c.2 = true := h items (by simp [hw])
      cases hie : items.isEmpty with
      | true => refine ⟨?_, ?_, ?_⟩ <;> simp [hie, pushResult]
      | false =>
        obtain ⟨hn, ha, hf⟩ := admitCands_skip ex name
          (items.map (fun it => (it.text, jsOr it.link t.url))) acc fid hcand
        refine ⟨?_, ?_, ?_⟩ <;> simp [hie, hn, ha, hf, pushResult]
  cases argSel with
  | some s => exact hcore s
  | none =>
    cases lookupSelector t.url DEFAULT_SELECTORS with
    | none => exact ⟨rfl, rfl, rfl⟩
    | some s => exact hcore s

/-- A target all of whose surfaced candidates already duplicate the
existing store contributes nothing: the accumulator's admitted items,
added count and the fresh-id counter are unchanged. -/
theorem processTarget_skip (mode : SourceMode) (name : String) (argSel : Option String)
    (ex : List NewsItem) (t : TargetSpec) (acc : RunAcc) (fid : Nat)
    (h : ∀ c ∈ targetCandidates mode argSel t, isDuplicate ex c.1 c.2 = true) :
    (processTarget mode name argSel ex t acc fid).1.newItems = acc.newItems
    ∧ (processTarget mode name argSel ex t acc fid).1.added = acc.added
    ∧ (processTarget mode name argSel ex t acc fid).2 = fid := by
  unfold targetCandidates at h
  unfold processTarget
  cases hc : classifyTwitter mode t.url with
  | true =>
    rw [hc] at h
    rw [if_pos rfl] at h ⊢
    rw [scrapeWithRetry_const_ok] at h
    refine twitterStep_skip ex name t acc fid ?_
    intro sr hsr
    rw [hsr] at h
    exact h (twitterTitle sr.text, jsOr sr.link t.url) (List.mem_singleton.mpr rfl)
  | false =>
    rw [hc] at h
    rw [if_neg (by simp)] at h ⊢
    unfold webTargetCandidates at h
    cases hsel : argSel with
    | some s =>
      refine webStep_skip ex name (some s) t acc fid ?_
      intro items hw c hch
      rw [hsel, hw] at h
      exact h c hch
    | none =>
      cases hlook : lookupSelector t.url DEFAULT_SELECTORS with
      | none =>
        unfold webStep
        rw [hlook]
        refine ⟨?_, ?_, ?_⟩ <;> rfl
      | some s =>
        refine webStep_skip ex name none t acc fid ?_
        intro items hw c hch
        rw [hsel, hlook, hw] at h
        exact h c hch

theorem runCandidates_cons (mode : SourceMode) (argSel : Option String)
    (t : TargetSpec) (rest : List TargetSpec) :
    runCandidates mode argSel (t :: rest)
      = targetCandidates mode argSel t ++ runCandidates mode argSel rest := by
  simp [runCandidates]

/-- A run all of whose surfaced candidates already duplicate the existing
store admits nothing. -/
theorem runLoop_skip (mode : SourceMode) (name : String) (argSel : Option String)
    (ex : List NewsItem) :
    ∀ (targets : List TargetSpec) (acc : RunAcc) (fid : Nat),
      (∀ c ∈ runCandidates mode argSel targets, isDuplicate ex c.1 c.2 = true) →
      (runLoop mode name argSel ex targets acc fid).newItems = acc.newItems
      ∧ (runLoop mode name argSel ex targets acc fid).added = acc.added := by
  intro targets
  induction targets with
  | nil => intro acc fid _; exact ⟨rfl, rfl⟩
  | cons t rest ih =>
    intro acc fid h
    rw [runCandidates_cons] at h
    have hhd : ∀ c ∈ targetCandidates mode argSel t, isDuplicate ex c.1 c.2 = true :=
      fun c hc => h c (List.mem_append_left _ hc)
    have htl : ∀ c ∈ runCandidates mode argSel rest, isDuplicate ex c.1 c.2 = true :=
      fun c hc => h c (List.mem_append_right _ hc)
    obtain ⟨hn, ha, hf⟩ := processTarget_skip mode name argSel ex t acc fid hhd
    simp only [runLoop]
    obtain ⟨ihn, iha⟩ := ih (processTarget mode name argSel ex t acc fid).1
      (processTarget mode name argSel ex t acc fid).2 htl
    rw [ihn, iha, hn, ha]
    exact ⟨rfl, rfl⟩

/-! ## Claim C2 -/

/-- C2: a run whose every surfaced candidate already duplicates the
persisted store (by case-insensitive title or byte-equal url) admits zero
new records and performs no store write, leaving the file untouched. -/
theorem C2_idempotence (mode : SourceMode) (name : String) (argSel : Option String)
    (store : ReadOutcome) (targets : List TargetSpec)
    (h : ∀ c ∈ runCandidates mode argSel targets,
      isDuplicate (readNewsJson store) c.1 c.2 = true) :
    (mainModel mode name argSel store targets).write = none
    ∧ (mainModel mode name argSel store targets).added = 0 := by
  obtain ⟨hn, ha⟩ := runLoop_skip mode name argSel (readNewsJson store) targets
    (RunAcc.mk [] 0 0 []) 0 h
  unfold mainModel
  constructor
  · simp [hn]
  · simpa using ha

/-- Witness for C2: a store already holding `A b` rejects the re-scraped
candidate `a B` (case-insensitive title match); nothing is written. -/
theorem C2_idempotence_witness :
    (mainModel SourceMode.web "s" (some "h2")
        (ReadOutcome.parsed [{ id := 9, source := "s", title := "A b", date := 0, url := "u0" }])
        [TargetSpec.mk "https://e.com" (TwitterPage.mk false false none none)
          (fun _ => Except.ok [WebElement.mk "a B" none none none]) (fun _ => none)]).write
      = none :=
  (C2_idempotence SourceMode.web "s" (some "h2")
      (ReadOutcome.parsed [{ id := 9, source := "s", title := "A b", date := 0, url := "u0" }])
      [TargetSpec.mk "https://e.com" (TwitterPage.mk false false none none)
        (fun _ => Except.ok [WebElement.mk "a B" none none none]) (fun _ => none)]
      (by decide)).1

/-! ## Lemmas about failure isolation and run reporting -/

theorem twitterStep_results_len (ex : List NewsItem) (name : String) (t : TargetSpec)
    (acc : RunAcc) (fid : Nat) :
    (twitterStep ex name t acc fid).1.results.length = acc.results.length + 1 := by
  unfold twitterStep
  rw [scrapeWithRetry_const_ok]
  cases hsr : scrapeTwitter t.resolve t.twitterPage t.url with
  | none => simp [pushResult]
  | some sr => simp [pushResult, admitCand_results]

theorem webStep_results_len (ex : List NewsItem) (name : String) (argSel : Option String)
    (t : TargetSpec) (acc : RunAcc) (fid : Nat) :
    (webStep ex name argSel t acc fid).1.results.length = acc.results.length + 1 := by
  unfold webStep
  have hcore :
      ((match (scrapeWithRetry (fun i => (t.webAttempts i).map (scrapeWeb t.resolve t.url)) MAX_RETRIES).1 with
        | some items =>
          if items.isEmpty then (pushResult acc t.url false none none, fid)
          else
            let content := String.intercalate " | " (items.map (fun it => it.text))
            let p := admitCands ex name acc fid
              (items.map (fun it => (it.text, jsOr it.link t.url)))
            (pushResult p.1 t.url false (some content) none, p.2)
        | none => (pushResult acc t.url false none none, fid)) : RunAcc × Nat).1.results.length
        = acc.results.length + 1 := by
    cases hw : (scrapeWithRetry (fun i => (t.webAttempts i).map (scrapeWeb t.resolve t.url)) MAX_RETRIES).1 with
    | none => simp [pushResult]
    | some items =>
      cases hie : items.isEmpty with
      | true => simp [hie, pushResult]
      | false => simp [hie, pushResult, admitCands_results]
  cases argSel with
  | some s => exact hcore
  | none =>
    cases lookupSelector t.url DEFAULT_SELECTORS with
    | none => simp [pushResult]
    | some s => exact hcore

theorem processTarget_results_len (mode : SourceMode) (name : String)
    (argSel : Option String) (ex : List NewsItem) (t : TargetSpec)
    (acc : RunAcc) (fid : Nat) :
    (processTarget mode name argSel ex t acc fid).1.results.length
      = acc.results.length + 1 := by
  unfold processTarget
  cases classifyTwitter mode t.url with
  | true =>
    rw [if_pos rfl]
    exact twitterStep_results_len ex name t acc fid
  | false =>
    rw [if_neg (by simp)]
    exact webStep_results_len ex name argSel t acc fid

theorem runLoop_results_len (mode : SourceMode) (name : String)
    (argSel : Option String) (ex : List NewsItem) :
    ∀ (targets : List TargetSpec) (acc : RunAcc) (fid : Nat),
      (runLoop mode name argSel ex targets acc fid).results.length
        = acc.results.length + targets.length := by
  intro targets
  induction targets with
  | nil => intro acc fid; simp [runLoop]
  | cons t rest ih =>
    intro acc fid
    simp only [runLoop]
    rw [ih, processTarget_results_len]
    simp [Nat.add_assoc, Nat.add_comm 1 rest.length]

theorem scrapeWithRetry_fail (fn : Nat → Except Unit α)
    (h : ∀ i, fn i = Except.error ()) : (scrapeWithRetry fn MAX_RETRIES).1 = none := by
  have hall := retryGo_all_fail fn MAX_RETRIES 1 le_rfl (fun j _ _ => h j)
  unfold scrapeWithRetry
  rw [hall]

/-- A web-classified target with an explicit selector whose every scrape
attempt throws exhausts the retry budget and produces only a report entry:
no candidates, no error field, accumulator otherwise untouched. -/
theorem processTarget_webfail (mode : SourceMode) (name sel0 : String)
    (ex : List NewsItem) (t : TargetSpec) (acc : RunAcc) (fid : Nat)
    (hc : classifyTwitter mode t.url = false)
    (hfail : ∀ i, t.webAttempts i = Except.error ()) :
    processTarget mode name (some sel0) ex t acc fid
      = (pushResult acc t.url false none none, fid) := by
  have hres : (scrapeWithRetry (fun i => (t.webAttempts i).map (scrapeWeb t.resolve t.url)) MAX_RETRIES).1
      = none := scrapeWithRetry_fail _ (fun i => by rw [hfail i]; rfl)
  unfold processTarget
  rw [if_neg (by simp [hc])]
  unfold webStep
  rw [hres]

/-- A failing web target also surfaces no candidates. -/
theorem targetCandidates_webfail (mode : SourceMode) (sel0 : String) (t : TargetSpec)
    (hc : classifyTwitter mode t.url = false)
    (hfail : ∀ i, t.webAttempts i = Except.error ()) :
    targetCandidates mode (some sel0) t = [] := by
  have hres : (scrapeWithRetry (fun i => (t.webAttempts i).map (scrapeWeb t.resolve t.url)) MAX_RETRIES).1
      = none := scrapeWithRetry_fail _ (fun i => by rw [hfail i]; rfl)
  unfold targetCandidates webTargetCandidates
  rw [if_neg (by simp [hc])]
  rw [hres]

/-! ## Claim C9 -/

/-- C9: target failures are isolated.  Every target contributes exactly one
report entry (the loop is total and the run always ends in a summary over
all targets), and a web target whose every retry attempt fails contributes
zero candidates and leaves the run state untouched apart from its report
entry — the remaining targets are processed exactly as they would be from
that state. -/
theorem C9_failure_isolation (mode : SourceMode) (name sel0 : String)
    (store : ReadOutcome) (ex : List NewsItem) :
    (∀ (targets : List TargetSpec) (acc : RunAcc) (fid : Nat),
      (runLoop mode name (some sel0) ex targets acc fid).results.length
        = acc.results.length + targets.length)
    ∧ (∀ targets : List TargetSpec,
      (mainModel mode name (some sel0) store targets).results.length = targets.length)
    ∧ (∀ (t : TargetSpec) (rest : List TargetSpec) (acc : RunAcc) (fid : Nat),
        classifyTwitter mode t.url = false →
        (∀ i, t.webAttempts i = Except.error ()) →
        targetCandidates mode (some sel0) t = []
        ∧ runLoop mode name (some sel0) ex (t :: rest) acc fid
            = runLoop mode name (some sel0) ex rest
                (pushResult acc t.url false none none) fid) := by
  refine ⟨runLoop_results_len mode name (some sel0) ex, fun targets => ?_,
    fun t rest acc fid hc hfail => ⟨targetCandidates_webfail mode sel0 t hc hfail, ?_⟩⟩
  · unfold mainModel
    rw [runLoop_results_len]
    simp
  · simp only [runLoop, processTarget_webfail mode name sel0 ex t acc fid hc hfail]

/-- Witness for C9: a concrete always-failing web target is skipped and the
loop continues with the rest. -/
theorem C9_failure_isolation_witness :
    targetCandidates SourceMode.web (some "h2")
        (TargetSpec.mk "https://e.com" (TwitterPage.mk false false none none)
          (fun _ => Except.error ()) (fun _ => none)) = []
    ∧ runLoop SourceMode.web "n" (some "h2") []
        [TargetSpec.mk "https://e.com" (TwitterPage.mk false false none none)
          (fun _ => Except.error ()) (fun _ => none)]
        (RunAcc.mk [] 0 0 []) 0
      = runLoop SourceMode.web "n" (some "h2") [] []
          (pushResult (RunAcc.mk [] 0 0 []) "https://e.com" false none none) 0 :=
  (C9_failure_isolation SourceMode.web "n" "h2" ReadOutcome.absent []).2.2
    (TargetSpec.mk "https://e.com" (TwitterPage.mk false false none none)
      (fun _ => Except.error ()) (fun _ => none))
    [] (RunAcc.mk [] 0 0 []) 0 rfl (fun _ => rfl)

end Monitor
